import Mathlib

/-!
Shallow embedding of the build-generation core of `src/main.py` (a PC-build
recommendation backend), together with theorems settling the frozen claims
about its specification.

Modelling conventions:
* A Python component dict becomes the record `Component`.  The fields that the
  source always accesses directly (`p["type"]`, `p["name"]`, `p["price"]`) are
  required fields; the fields the source reads with `dict.get` (or whose
  absence a claim is about) are `Option`-valued: `performance_score`,
  `wattage`, `socket`, `ram_type`.  `dict.get(k)` with no default becomes the
  `Option` value itself (absent = `none`); `dict.get(k, 0)` becomes `getD 0`.
* Python floats are modelled as rationals (`ℚ`); the literal `1.2` becomes
  `12/10`.
* `sorted(xs, key=k, reverse=True)` (a stable descending sort) becomes
  `List.mergeSort` with the relation `fun a b => k b ≤ k a`, which is also
  stable and puts larger keys first.
* The dict comprehension `{c["name"]: c for c in xs}` followed by `.values()`
  (Python dicts keep first-insertion key order and the last value bound to a
  key) is modelled by `dedupByName`.
* `generate_best_build` returns `Except Unit (Option Build)`: `.ok none` for
  the two `return None` paths, `.error ()` for the `KeyError` that Python
  raises when a required-category component lacks `"performance_score"`
  (accessed directly in the candidate reducer's sort key, `main.py` line 98).
-/

namespace PCBuild

/-- Catalog entry, mirroring the component dicts of `main.py` /
`test_main_mongomock.py`.  `type`, `name`, `price` are accessed directly by
the source (their absence would make even grouping fail); the other four
fields are read with `dict.get` or are the subject of missing-field claims,
so they are `Option`-valued with `none` meaning the key is absent. -/
structure Component where
  type : String
  name : String
  price : ℚ
  performance_score : Option ℚ
  wattage : Option ℚ
  socket : Option String
  ram_type : Option String
deriving DecidableEq, Repr

/-- Weight table for purpose `"gaming"` (`PURPOSE_WEIGHTS["gaming"]`); the
source always reads it with `weights.get(cat, 0)`, so it is modelled as a
total function defaulting to `0`. -/
def gamingWeights (cat : String) : ℚ :=
  if cat = "CPU" then 3/10
  else if cat = "GPU" then 7/10
  else if cat = "RAM" then 1/10
  else if cat = "Storage" then 1/10
  else 0

/-- Weight table for purpose `"editing"` (`PURPOSE_WEIGHTS["editing"]`). -/
def editingWeights (cat : String) : ℚ :=
  if cat = "CPU" then 7/10
  else if cat = "GPU" then 2/10
  else if cat = "RAM" then 2/10
  else if cat = "Storage" then 2/10
  else 0

/-- Weight table for purpose `"general"` (`PURPOSE_WEIGHTS["general"]`). -/
def generalWeights (cat : String) : ℚ :=
  if cat = "CPU" then 5/10
  else if cat = "GPU" then 2/10
  else if cat = "RAM" then 2/10
  else if cat = "Storage" then 2/10
  else 0

/-- The dict `PURPOSE_WEIGHTS` of `main.py` as a keyed lookup:
`some` on its three keys, `none` otherwise. -/
def PURPOSE_WEIGHTS (purpose : String) : Option (String → ℚ) :=
  if purpose = "gaming" then some gamingWeights
  else if purpose = "editing" then some editingWeights
  else if purpose = "general" then some generalWeights
  else none

/-- The lookup `PURPOSE_WEIGHTS.get(purpose.lower(), PURPOSE_WEIGHTS["general"])`
used at `main.py` lines 67 and 78. -/
def weightsFor (purpose : String) : String → ℚ :=
  (PURPOSE_WEIGHTS purpose.toLower).getD generalWeights

/-- `REQUIRED_CATEGORIES` of `main.py` line 50. -/
def REQUIRED_CATEGORIES : List String :=
  ["CPU", "GPU", "Motherboard", "RAM", "Storage", "PSU", "Case"]

/-- `is_compatible` of `main.py` lines 52-64: the four `next(...)` lookups
become `List.find?`; the `all([...])` truthiness test becomes the `some`
pattern match; `dict.get` comparisons become `Option` equality (so two absent
values compare equal, exactly as `None == None` does in Python). -/
def is_compatible (build : List Component) : Bool :=
  match build.find? (fun c => c.type == "CPU"),
        build.find? (fun c => c.type == "Motherboard"),
        build.find? (fun c => c.type == "RAM"),
        build.find? (fun c => c.type == "PSU") with
  | some cpu, some motherboard, some ram, some _psu =>
      cpu.socket == motherboard.socket && ram.ram_type == motherboard.ram_type
  | _, _, _, _ => false

/-- `score_build` of `main.py` lines 66-74: a running sum over the build of
`component.get("performance_score", 0) * weights.get(component["type"], 0)`. -/
def score_build (build : List Component) (purpose : String) : ℚ :=
  let weights := weightsFor purpose
  build.foldl
    (fun score component =>
      score + component.performance_score.getD 0 * weights component.type) 0

/-- Grouping of `main.py` lines 79-81: `grouped[p["type"]].append(p)` keeps,
for each category, the products of that type in input order. -/
def grouped (products : List Component) (cat : String) : List Component :=
  products.filter (fun p => p.type == cat)

/-- The sort key of the value ranking, `main.py` line 98:
`(x["performance_score"] * weights.get(cat, 0)) / max(x["price"], 1)`.
Here `performance_score` is read as `getD 0`; the separate predicate
`perfKeyError` records exactly when Python would instead raise `KeyError`
on this direct access. -/
def valueKey (weights : String → ℚ) (cat : String) (x : Component) : ℚ :=
  x.performance_score.getD 0 * weights cat / max x.price 1

/-- One assignment `m[k] = v` on a Python dict modelled as an association
list: an existing key keeps its position but gets the new value, a new key is
appended. -/
def dictInsert (m : List (String × Component)) (k : String) (v : Component) :
    List (String × Component) :=
  if m.any (fun kv => kv.1 == k) then
    m.map (fun kv => if kv.1 == k then (k, v) else kv)
  else m ++ [(k, v)]

/-- `list({c["name"]: c for c in cs}.values())` of `main.py` lines 110-111:
de-duplication by component name with Python-dict semantics (first-insertion
key order, last value wins). -/
def dedupByName (cs : List Component) : List Component :=
  (cs.foldl (fun m c => dictInsert m c.name c) []).map Prod.snd

/-- The candidate reducer body for one category, `main.py` lines 92-111:
top 5 by descending `valueKey` (stable), plus top 2 by descending price among
components priced at or below the budget (stable), de-duplicated by name. -/
def reduceCat (weights : String → ℚ) (budget : ℚ) (cat : String)
    (components : List Component) : List Component :=
  let value_sorted :=
    (components.mergeSort
      (fun a b => decide (valueKey weights cat b ≤ valueKey weights cat a))).take 5
  let high_price_sorted :=
    ((components.filter (fun c => decide (c.price ≤ budget))).mergeSort
      (fun a b => decide (b.price ≤ a.price))).take 2
  dedupByName (value_sorted ++ high_price_sorted)

/-- The per-category candidate lists `limited[cat]`, in the order of
`REQUIRED_CATEGORIES` (`main.py` lines 92-111 and 117). -/
def limitedAll (products : List Component) (budget : ℚ) (purpose : String) :
    List (List Component) :=
  REQUIRED_CATEGORIES.map
    (fun cat => reduceCat (weightsFor purpose) budget cat (grouped products cat))

/-- `itertools.product(*lists)` with the rightmost factor varying fastest,
each tuple materialised as a list (`build = list(combo)`, `main.py` line 118). -/
def crossProduct : List (List Component) → List (List Component)
  | [] => [[]]
  | l :: ls => l.flatMap (fun x => (crossProduct ls).map (fun rest => x :: rest))

/-- `total_wattage` of `main.py` line 123: sum of `comp.get("wattage", 0)`
over the non-PSU components. -/
def totalWattage (build : List Component) : ℚ :=
  ((build.filter (fun c => c.type != "PSU")).map (fun c => c.wattage.getD 0)).sum

/-- The power check of `main.py` lines 123-126: `True` (keep the build) unless
a PSU is found and its wattage is below `total_wattage * 1.2`. -/
def powerOK (build : List Component) : Bool :=
  match build.find? (fun c => c.type == "PSU") with
  | some psu => !(decide (psu.wattage.getD 0 < totalWattage build * (12/10)))
  | none => true

/-- `total_price` of `main.py` line 128. -/
def totalPrice (build : List Component) : ℚ :=
  (build.map (fun c => c.price)).sum

/-- A combination survives all three `continue` filters of the search loop
(`main.py` lines 120-130): compatibility, power sufficiency, budget. -/
def admissible (budget : ℚ) (build : List Component) : Bool :=
  is_compatible build && powerOK build && decide (totalPrice build ≤ budget)

/-- The mutable loop state `(best_score, best_price, best_build)` of
`main.py` lines 113-115. -/
structure BestState where
  best_score : ℚ
  best_price : ℚ
  best_build : Option (List Component)
deriving DecidableEq, Repr

/-- Initial loop state: `best_score = -1`, `best_price = 0`,
`best_build = None`. -/
def initState : BestState := ⟨-1, 0, none⟩

/-- The replacement test of `main.py` line 134:
`score > best_score or (score == best_score and total_price > best_price)`. -/
def replaceCond (score total_price : ℚ) (st : BestState) : Bool :=
  decide (score > st.best_score) ||
    (decide (score = st.best_score) && decide (total_price > st.best_price))

/-- One iteration of the search loop of `main.py` lines 117-137 on one
enumerated combination. -/
def stepBest (budget : ℚ) (purpose : String) (st : BestState)
    (build : List Component) : BestState :=
  if admissible budget build then
    if replaceCond (score_build build purpose) (totalPrice build) st then
      ⟨score_build build purpose, totalPrice build, some build⟩
    else st
  else st

/-- The missing-required-category test of `main.py` lines 83-86. -/
def hasMissingCategory (products : List Component) : Bool :=
  REQUIRED_CATEGORIES.any (fun cat => (grouped products cat).isEmpty)

/-- Exactly when the candidate reducer's direct access
`x["performance_score"]` (`main.py` line 98) raises `KeyError`: some product
whose type is a required category lacks the field.  (The reducer sorts every
`grouped[cat]` for the required categories, evaluating the key on every
member.) -/
def perfKeyError (products : List Component) : Bool :=
  products.any
    (fun c => REQUIRED_CATEGORIES.contains c.type && c.performance_score.isNone)

/-- The enumerated combinations of `main.py` line 117. -/
def combosOf (products : List Component) (budget : ℚ) (purpose : String) :
    List (List Component) :=
  crossProduct (limitedAll products budget purpose)

/-- `generate_best_build` of `main.py` lines 76-143.  `include_os` and
`peripherals` are parameters of the source function and are kept here; the
source body never reads them.  `.ok none` models both `return None` paths
(missing category, line 86, and no surviving combination, line 141);
`.error ()` models the `KeyError` escaping from line 98. -/
def generate_best_build (products : List Component) (budget : ℚ)
    (purpose : String) (include_os : Bool) (peripherals : List String) :
    Except Unit (Option (List Component)) :=
  if hasMissingCategory products then .ok none
  else if perfKeyError products then .error ()
  else .ok (((combosOf products budget purpose).foldl
              (stepBest budget purpose) initState).best_build)

/-! ### Order on (score, price) pairs tracked by the search loop -/

/-- Weak lexicographic order on (score, price): strictly better score, or equal
score and no worse price. -/
def pairLE (a b : ℚ × ℚ) : Prop := a.1 < b.1 ∨ (a.1 = b.1 ∧ a.2 ≤ b.2)

/-- Strict lexicographic order on (score, price): exactly the replacement test
of `main.py` line 134. -/
def pairLT (a b : ℚ × ℚ) : Prop := a.1 < b.1 ∨ (a.1 = b.1 ∧ a.2 < b.2)

/-- The (best_score, best_price) pair of a loop state. -/
def statePair (st : BestState) : ℚ × ℚ := (st.best_score, st.best_price)

/-- The (score, total price) pair of a candidate combination. -/
def buildPair (purpose : String) (b : List Component) : ℚ × ℚ :=
  (score_build b purpose, totalPrice b)

theorem pairLE_refl (a : ℚ × ℚ) : pairLE a a := Or.inr ⟨rfl, le_refl _⟩

theorem pairLE_trans {a b c : ℚ × ℚ} (h1 : pairLE a b) (h2 : pairLE b c) :
    pairLE a c := by
  rcases h1 with h1 | ⟨h1, h1'⟩ <;> rcases h2 with h2 | ⟨h2, h2'⟩
  · exact Or.inl (lt_trans h1 h2)
  · exact Or.inl (h2 ▸ h1)
  · exact Or.inl (h1 ▸ h2)
  · exact Or.inr ⟨h1.trans h2, h1'.trans h2'⟩

theorem pairLE_of_pairLT {a b : ℚ × ℚ} (h : pairLT a b) : pairLE a b := by
  rcases h with h | ⟨h, h'⟩
  · exact Or.inl h
  · exact Or.inr ⟨h, le_of_lt h'⟩

theorem pairLE_trans_pairLT {a b c : ℚ × ℚ} (h1 : pairLE a b) (h2 : pairLT b c) :
    pairLT a c := by
  rcases h1 with h1 | ⟨h1, h1'⟩ <;> rcases h2 with h2 | ⟨h2, h2'⟩
  · exact Or.inl (lt_trans h1 h2)
  · exact Or.inl (h2 ▸ h1)
  · exact Or.inl (h1 ▸ h2)
  · exact Or.inr ⟨h1.trans h2, lt_of_le_of_lt h1' h2'⟩

theorem pairLT_irrefl (a : ℚ × ℚ) : ¬ pairLT a a := by
  rintro (h | ⟨-, h⟩) <;> exact absurd h (lt_irrefl _)

theorem pairLE_antisymm {a b : ℚ × ℚ} (h1 : pairLE a b) (h2 : pairLE b a) :
    a = b := by
  rcases h1 with h1 | ⟨h1, h1'⟩ <;> rcases h2 with h2 | ⟨h2, h2'⟩
  · exact absurd (lt_trans h1 h2) (lt_irrefl _)
  · exact absurd h1 (h2 ▸ lt_irrefl _)
  · exact absurd h2 (h1 ▸ lt_irrefl _)
  · exact Prod.ext h1 (le_antisymm h1' h2')

theorem not_pairLT {a b : ℚ × ℚ} (h : ¬ pairLT a b) : pairLE b a := by
  unfold pairLT at h
  push_neg at h
  rcases lt_trichotomy a.1 b.1 with hlt | heq | hgt
  · exact absurd h.1 (not_le.mpr hlt)
  · exact Or.inr ⟨heq.symm, h.2 heq⟩
  · exact Or.inl hgt

/-! ### Characterisation of the search loop -/

/-- The replacement test succeeds exactly when the new (score, price) pair is
strictly lexicographically better than the tracked one. -/
theorem replaceCond_iff (score price : ℚ) (st : BestState) :
    replaceCond score price st = true ↔ pairLT (statePair st) (score, price) := by
  simp only [replaceCond, pairLT, statePair, Bool.or_eq_true, Bool.and_eq_true,
    decide_eq_true_eq, gt_iff_lt]
  constructor
  · rintro (h | ⟨h, h'⟩)
    · exact Or.inl h
    · exact Or.inr ⟨h.symm, h'⟩
  · rintro (h | ⟨h, h'⟩)
    · exact Or.inl h
    · exact Or.inr ⟨h.symm, h'⟩

/-- One loop iteration either leaves the state unchanged or installs the
current combination, and it installs only a strictly better pair. -/
theorem stepBest_cases (budget : ℚ) (purpose : String) (st : BestState)
    (build : List Component) :
    stepBest budget purpose st build = st ∨
      (admissible budget build = true ∧
       stepBest budget purpose st build =
         ⟨score_build build purpose, totalPrice build, some build⟩ ∧
       pairLT (statePair st) (buildPair purpose build)) := by
  unfold stepBest
  by_cases ha : admissible budget build
  · rw [if_pos ha]
    by_cases hr : replaceCond (score_build build purpose) (totalPrice build) st
    · rw [if_pos hr]
      exact Or.inr ⟨ha, rfl, (replaceCond_iff _ _ _).mp hr⟩
    · rw [if_neg hr]; exact Or.inl rfl
  · rw [if_neg ha]; exact Or.inl rfl

/-- One loop iteration never makes the tracked pair lexicographically worse. -/
theorem stepBest_mono (budget : ℚ) (purpose : String) (st : BestState)
    (build : List Component) :
    pairLE (statePair st) (statePair (stepBest budget purpose st build)) := by
  rcases stepBest_cases budget purpose st build with h | ⟨-, h, hlt⟩
  · rw [h]; exact pairLE_refl _
  · rw [h]; exact pairLE_of_pairLT hlt

/-- After processing an admissible combination, the tracked pair weakly
dominates that combination's pair. -/
theorem stepBest_dominates (budget : ℚ) (purpose : String) (st : BestState)
    (build : List Component) (h : admissible budget build = true) :
    pairLE (buildPair purpose build) (statePair (stepBest budget purpose st build)) := by
  unfold stepBest
  rw [if_pos h]
  by_cases hr : replaceCond (score_build build purpose) (totalPrice build) st
  · rw [if_pos hr]; exact pairLE_refl _
  · rw [if_neg hr]
    exact not_pairLT (fun hlt => hr ((replaceCond_iff _ _ _).mpr hlt))

/-- The tracked pair never gets lexicographically worse over the whole loop. -/
theorem foldBest_mono (budget : ℚ) (purpose : String) :
    ∀ (l : List (List Component)) (st : BestState),
      pairLE (statePair st) (statePair (l.foldl (stepBest budget purpose) st))
  | [], _ => pairLE_refl _
  | x :: l, st =>
    pairLE_trans (stepBest_mono budget purpose st x)
      (foldBest_mono budget purpose l (stepBest budget purpose st x))

/-- After the whole loop, the tracked pair weakly dominates every admissible
combination of the enumeration. -/
theorem foldBest_dominates (budget : ℚ) (purpose : String) :
    ∀ (l : List (List Component)) (st : BestState) (b : List Component),
      b ∈ l → admissible budget b = true →
      pairLE (buildPair purpose b) (statePair (l.foldl (stepBest budget purpose) st))
  | x :: l, st, b, hmem, hadm => by
    simp only [List.foldl_cons]
    rcases List.mem_cons.mp hmem with rfl | hmem
    · exact pairLE_trans (stepBest_dominates budget purpose st b hadm)
        (foldBest_mono budget purpose l (stepBest budget purpose st b))
    · exact foldBest_dominates budget purpose l (stepBest budget purpose st x) b hmem hadm

/-- The final state is either the initial state untouched, or records some
admissible combination of the enumeration together with its own pair, which is
then strictly better than the initial pair. -/
theorem foldBest_origin (budget : ℚ) (purpose : String) :
    ∀ (l : List (List Component)) (st : BestState),
      l.foldl (stepBest budget purpose) st = st ∨
        ∃ b ∈ l, admissible budget b = true ∧
          l.foldl (stepBest budget purpose) st =
            ⟨score_build b purpose, totalPrice b, some b⟩ ∧
          pairLT (statePair st) (buildPair purpose b)
  | [], _ => Or.inl rfl
  | x :: l, st => by
    rcases foldBest_origin budget purpose l (stepBest budget purpose st x) with h | ⟨b, hmem, hadm, hfold, hlt⟩
    · rcases stepBest_cases budget purpose st x with hx | ⟨hadm, hx, hlt⟩
      · exact Or.inl (by simpa [hx] using h)
      · refine Or.inr ⟨x, List.mem_cons_self x l, hadm, ?_, ?_⟩
        · simpa [hx] using h
        · exact hlt
    · refine Or.inr ⟨b, List.mem_cons_of_mem x hmem, hadm, by simpa using hfold, ?_⟩
      exact pairLE_trans_pairLT (stepBest_mono budget purpose st x) hlt

/-- If the loop ends with `best_build = some b`, then either it started that
way, or `b` is an admissible combination of the enumeration, the final state
records exactly `b`'s (score, price) pair, and no admissible combination
enumerated strictly before `b`'s position ties with `b` on both score and
total price (first-seen tie persistence). -/
theorem foldBest_first (budget : ℚ) (purpose : String) :
    ∀ (l : List (List Component)) (st : BestState) (b : List Component),
      (l.foldl (stepBest budget purpose) st).best_build = some b →
      st.best_build = some b ∨
        (admissible budget b = true ∧
         (l.foldl (stepBest budget purpose) st).best_score = score_build b purpose ∧
         (l.foldl (stepBest budget purpose) st).best_price = totalPrice b ∧
         ∃ l1 l2, l = l1 ++ b :: l2 ∧
           ∀ b' ∈ l1, admissible budget b' = true →
             ¬(score_build b' purpose = score_build b purpose ∧
               totalPrice b' = totalPrice b))
  | [], _, _, h => Or.inl h
  | x :: l, st, b, h => by
    have h' : (l.foldl (stepBest budget purpose) (stepBest budget purpose st x)).best_build
        = some b := by simpa only [List.foldl_cons] using h
    simp only [List.foldl_cons]
    rcases foldBest_first budget purpose l (stepBest budget purpose st x) b h' with
      hA | ⟨hadm, hsc, hpr, l1, l2, hdec, hnone⟩
    · rcases stepBest_cases budget purpose st x with hx | ⟨hadmx, hx, -⟩
      · rw [hx] at hA
        exact Or.inl hA
      · rw [hx] at hA
        have hxb : x = b := by simpa using hA
        subst hxb
        rcases foldBest_origin budget purpose l (stepBest budget purpose st x) with
          horig | ⟨b2, -, -, hfold2, hlt2⟩
        · exact Or.inr ⟨hadmx, by rw [horig, hx], by rw [horig, hx],
            [], l, rfl, by simp⟩
        · have hb2 : b2 = x := by
            rw [hfold2] at h'
            simpa using h'
          subst hb2
          rw [hx] at hlt2
          exact absurd hlt2 (pairLT_irrefl _)
    · by_cases hx_eq : admissible budget x = true ∧
        score_build x purpose = score_build b purpose ∧ totalPrice x = totalPrice b
      · obtain ⟨hadmx, hseq, hpeq⟩ := hx_eq
        have hdomx : pairLE (buildPair purpose x)
            (statePair (stepBest budget purpose st x)) :=
          stepBest_dominates budget purpose st x hadmx
        have hmono : pairLE (statePair (stepBest budget purpose st x))
            (statePair (l.foldl (stepBest budget purpose) (stepBest budget purpose st x))) :=
          foldBest_mono budget purpose l (stepBest budget purpose st x)
        have hfinal : statePair (l.foldl (stepBest budget purpose)
            (stepBest budget purpose st x)) = buildPair purpose x := by
          unfold statePair buildPair
          rw [hsc, hpr, hseq, hpeq]
        have hstate : statePair (stepBest budget purpose st x) = buildPair purpose x := by
          rw [hfinal] at hmono
          exact pairLE_antisymm hmono hdomx
        rcases foldBest_origin budget purpose l (stepBest budget purpose st x) with
          horig | ⟨b2, -, -, hfold2, hlt2⟩
        · rw [horig] at h'
          rcases stepBest_cases budget purpose st x with hx | ⟨-, hx, -⟩
          · rw [hx] at h'
            exact Or.inl h'
          · rw [hx] at h'
            have hxb : x = b := by simpa using h'
            subst hxb
            exact Or.inr ⟨hadm, hsc, hpr, [], l, rfl, by simp⟩
        · have hb2 : b2 = b := by
            rw [hfold2] at h'
            simpa using h'
          rw [hstate] at hlt2
          have hbx : buildPair purpose x = buildPair purpose b2 := by
            unfold buildPair
            rw [hseq, hpeq, hb2]
          rw [← hbx] at hlt2
          exact absurd hlt2 (pairLT_irrefl _)
      · refine Or.inr ⟨hadm, hsc, hpr, x :: l1, l2, by rw [hdec, List.cons_append], ?_⟩
        intro b' hb' hadm'
        rcases List.mem_cons.mp hb' with rfl | hb'
        · intro ⟨hs, hp⟩
          exact hx_eq ⟨hadm', hs, hp⟩
        · exact hnone b' hb' hadm'

/-! ### Structure of the enumerated combinations -/

/-- A member of the cross product of `cats.map f` picks, position by position,
one element of `f cat` for each `cat` in `cats`. -/
theorem mem_crossProduct_map {f : String → List Component} :
    ∀ (cats : List String) (b : List Component),
      b ∈ crossProduct (cats.map f) → List.Forall₂ (fun c cat => c ∈ f cat) b cats
  | [], b, h => by
    simp only [List.map_nil, crossProduct, List.mem_singleton] at h
    subst h
    exact List.Forall₂.nil
  | cat :: cats, b, h => by
    simp only [List.map_cons, crossProduct, List.mem_flatMap, List.mem_map] at h
    obtain ⟨x, hx, rest, hrest, rfl⟩ := h
    exact List.Forall₂.cons hx (mem_crossProduct_map cats rest hrest)

/-- A Python-dict insertion only ever contributes the inserted pair or pairs
already present. -/
theorem mem_dictInsert {m : List (String × Component)} {k : String}
    {v : Component} {p : String × Component} (h : p ∈ dictInsert m k v) :
    p = (k, v) ∨ p ∈ m := by
  unfold dictInsert at h
  split at h
  · obtain ⟨kv, hkv, hmap⟩ := List.mem_map.mp h
    by_cases hk : kv.1 == k
    · rw [if_pos (by simpa using hk)] at hmap
      exact Or.inl hmap.symm
    · rw [if_neg (by simpa using hk)] at hmap
      exact Or.inr (hmap ▸ hkv)
  · rcases List.mem_append.mp h with h1 | h2
    · exact Or.inr h1
    · exact Or.inl (List.mem_singleton.mp h2)

/-- Every value of the dict built by the de-duplication fold comes from the
initial dict or from the inserted component list. -/
theorem mem_dictFold :
    ∀ (cs : List Component) (m : List (String × Component)) (p : String × Component),
      p ∈ cs.foldl (fun m c => dictInsert m c.name c) m → p ∈ m ∨ p.2 ∈ cs
  | [], _, _, h => Or.inl h
  | c :: cs, m, p, h => by
    rcases mem_dictFold cs (dictInsert m c.name c) p (by simpa using h) with h1 | h2
    · rcases mem_dictInsert h1 with rfl | h3
      · exact Or.inr (List.mem_cons_self _ _)
      · exact Or.inl h3
    · exact Or.inr (List.mem_cons_of_mem _ h2)

/-- De-duplication by name only keeps components of its input. -/
theorem mem_dedupByName {c : Component} {cs : List Component}
    (h : c ∈ dedupByName cs) : c ∈ cs := by
  unfold dedupByName at h
  obtain ⟨p, hp, rfl⟩ := List.mem_map.mp h
  rcases mem_dictFold cs [] p hp with h1 | h2
  · cases h1
  · exact h2

/-- The candidate reducer only keeps components of the category pool it was
given. -/
theorem mem_reduceCat {w : String → ℚ} {budget : ℚ} {cat : String}
    {comps : List Component} {c : Component} (h : c ∈ reduceCat w budget cat comps) :
    c ∈ comps := by
  unfold reduceCat at h
  rcases List.mem_append.mp (mem_dedupByName h) with h1 | h2
  · exact List.mem_mergeSort.mp (List.mem_of_mem_take h1)
  · exact List.mem_of_mem_filter (List.mem_mergeSort.mp (List.mem_of_mem_take h2))

/-- Members of a category group are products of that exact type. -/
theorem mem_grouped {products : List Component} {cat : String} {c : Component}
    (h : c ∈ grouped products cat) : c ∈ products ∧ c.type = cat := by
  unfold grouped at h
  exact ⟨List.mem_of_mem_filter h, by simpa using List.of_mem_filter h⟩

/-- Every enumerated combination picks, position by position, one product of
each required category, in the fixed category order. -/
theorem combos_types {products : List Component} {budget : ℚ} {purpose : String}
    {b : List Component} (h : b ∈ combosOf products budget purpose) :
    List.Forall₂ (fun c cat => c.type = cat ∧ c ∈ products) b REQUIRED_CATEGORIES := by
  unfold combosOf limitedAll at h
  refine (mem_crossProduct_map REQUIRED_CATEGORIES b h).imp ?_
  intro c cat hc
  have h2 := (mem_grouped (mem_reduceCat hc))
  exact ⟨h2.2, h2.1⟩

/-- Per-category occurrence counts transfer from a typed combination to the
category list. -/
theorem forall₂_filter_count {b : List Component} {cats : List String}
    (h : List.Forall₂ (fun c cat => c.type = cat) b cats) (cat : String) :
    (b.filter (fun c => c.type == cat)).length =
      (cats.filter (fun c => c == cat)).length := by
  induction h with
  | nil => rfl
  | @cons a b' l l' hR hF ih =>
    simp only [List.filter_cons, hR]
    split
    · simpa using ih
    · exact ih

/-- Every component of a typed combination has a type in the category list. -/
theorem forall₂_types_mem {b : List Component} {cats : List String}
    (h : List.Forall₂ (fun c cat => c.type = cat) b cats) :
    ∀ c ∈ b, c.type ∈ cats := by
  induction h with
  | nil => intro c hc; cases hc
  | @cons a b' l l' hR hF ih =>
    intro c hc
    rcases List.mem_cons.mp hc with rfl | hc
    · exact hR ▸ List.mem_cons_self _ _
    · exact List.mem_cons_of_mem _ (ih c hc)

/-! ### Unpacking a successful run of `generate_best_build` -/

/-- Inversion of a successful, build-returning run: no category was missing,
no `KeyError` was raised, and the final loop state holds the returned build. -/
theorem generate_ok_some {products : List Component} {budget : ℚ}
    {purpose : String} {os : Bool} {ps : List String} {b : List Component}
    (h : generate_best_build products budget purpose os ps = .ok (some b)) :
    hasMissingCategory products = false ∧ perfKeyError products = false ∧
      ((combosOf products budget purpose).foldl (stepBest budget purpose)
        initState).best_build = some b := by
  unfold generate_best_build at h
  by_cases h1 : hasMissingCategory products
  · rw [if_pos h1] at h
    simp at h
  · rw [if_neg h1] at h
    by_cases h2 : perfKeyError products
    · rw [if_pos h2] at h
      simp at h
    · rw [if_neg h2] at h
      exact ⟨by simpa using h1, by simpa using h2, by simpa using h⟩

/-- A returned build is one of the enumerated combinations and passes all
three filters. -/
theorem generate_mem_admissible {products : List Component} {budget : ℚ}
    {purpose : String} {os : Bool} {ps : List String} {b : List Component}
    (h : generate_best_build products budget purpose os ps = .ok (some b)) :
    b ∈ combosOf products budget purpose ∧ admissible budget b = true := by
  obtain ⟨-, -, hfold⟩ := generate_ok_some h
  rcases foldBest_first budget purpose _ initState b hfold with hinit | ⟨hadm, -, -, l1, l2, hdec, -⟩
  · cases hinit
  · refine ⟨?_, hadm⟩
    rw [hdec]
    exact List.mem_append_right _ (List.mem_cons_self _ _)

/-- Splitting the three filters of `admissible`. -/
theorem admissible_parts {budget : ℚ} {b : List Component}
    (h : admissible budget b = true) :
    is_compatible b = true ∧ powerOK b = true ∧ totalPrice b ≤ budget := by
  simp only [admissible, Bool.and_eq_true, decide_eq_true_eq] at h
  exact ⟨h.1.1, h.1.2, h.2⟩

/-- Inversion of a successful compatibility check: the four lookups succeed
and the two field equations hold (as equalities of optional values). -/
theorem is_compatible_elim {b : List Component} (h : is_compatible b = true) :
    ∃ cpu motherboard ram psu,
      b.find? (fun c => c.type == "CPU") = some cpu ∧
      b.find? (fun c => c.type == "Motherboard") = some motherboard ∧
      b.find? (fun c => c.type == "RAM") = some ram ∧
      b.find? (fun c => c.type == "PSU") = some psu ∧
      cpu.socket = motherboard.socket ∧ ram.ram_type = motherboard.ram_type := by
  unfold is_compatible at h
  split at h
  case _ cpu motherboard ram psu hcpu hmb hram hpsu =>
    simp only [Bool.and_eq_true, beq_iff_eq] at h
    exact ⟨cpu, motherboard, ram, psu, hcpu, hmb, hram, hpsu, h.1, h.2⟩
  case _ =>
    cases h

/-- Inversion of a successful power check when a PSU is present. -/
theorem powerOK_elim {b : List Component} {psu : Component}
    (hfind : b.find? (fun c => c.type == "PSU") = some psu)
    (h : powerOK b = true) :
    totalWattage b * (12/10) ≤ psu.wattage.getD 0 := by
  unfold powerOK at h
  rw [hfind] at h
  simpa using h

/-! ### Concrete catalogs used to exercise the claims

A small mutually compatible catalog, one component per required category
(mirroring the shape of the records in `test_main_mongomock.py`), plus
variants: an added Operating-System component, a missing GPU, an incompatible
CPU socket, and a CPU lacking `performance_score`. -/

/-- Demo CPU: socket AM4, 65 W, performance 100, £200. -/
def cCPU : Component :=
  ⟨"CPU", "cpu1", 200, some 100, some 65, some "AM4", none⟩

/-- Demo GPU: 150 W, performance 150, £300. -/
def cGPU : Component :=
  ⟨"GPU", "gpu1", 300, some 150, some 150, none, none⟩

/-- Demo motherboard: socket AM4, DDR4, 30 W, £100. -/
def cMB : Component :=
  ⟨"Motherboard", "mb1", 100, some 50, some 30, some "AM4", some "DDR4"⟩

/-- Demo RAM: DDR4, 5 W, £80. -/
def cRAM : Component :=
  ⟨"RAM", "ram1", 80, some 60, some 5, none, some "DDR4"⟩

/-- Demo storage: 5 W, £60. -/
def cST : Component :=
  ⟨"Storage", "st1", 60, some 40, some 5, none, none⟩

/-- Demo PSU: 600 W rating, £90. -/
def cPSU : Component :=
  ⟨"PSU", "psu1", 90, some 30, some 600, none, none⟩

/-- Demo case: 0 W, £50. -/
def cCase : Component :=
  ⟨"Case", "case1", 50, some 10, some 0, none, none⟩

/-- An Operating-System-category catalog entry. -/
def cOS : Component :=
  ⟨"Operating System", "os1", 100, some 0, none, none, none⟩

/-- Demo CPU with an incompatible socket (LGA1200 against the AM4 board). -/
def cCPUBadSocket : Component :=
  ⟨"CPU", "cpu2", 200, some 100, some 65, some "LGA1200", none⟩

/-- Demo CPU lacking the `performance_score` field. -/
def cCPUNoPerf : Component :=
  ⟨"CPU", "cpu3", 200, none, some 65, some "AM4", none⟩

/-- One compatible component per required category. -/
def demoCatalog : List Component := [cCPU, cGPU, cMB, cRAM, cST, cPSU, cCase]

/-- The unique admissible combination of `demoCatalog`. -/
def demoBuild : List Component := [cCPU, cGPU, cMB, cRAM, cST, cPSU, cCase]

/-- Demo catalog with an Operating-System component appended. -/
def catalogWithOS : List Component := demoCatalog ++ [cOS]

/-- Demo catalog with no GPU at all. -/
def catalogMissingGPU : List Component := [cCPU, cMB, cRAM, cST, cPSU, cCase]

/-- Demo catalog whose only CPU is socket-incompatible with the only board. -/
def catalogIncompat : List Component :=
  [cCPUBadSocket, cGPU, cMB, cRAM, cST, cPSU, cCase]

/-- Demo catalog whose only CPU lacks `performance_score`. -/
def catalogNoPerf : List Component :=
  [cCPUNoPerf, cGPU, cMB, cRAM, cST, cPSU, cCase]

/-- The purpose lookup at the literal key `"gaming"`. -/
theorem weightsFor_gaming : weightsFor "gaming" = gamingWeights := by
  simp [weightsFor, String.toLower, String.map_eq, PURPOSE_WEIGHTS]

/-- On the demo catalog the search returns its unique combination. -/
theorem eval_demo :
    generate_best_build demoCatalog 1000 "gaming" false [] = .ok (some demoBuild) := by
  norm_num +decide [generate_best_build, hasMissingCategory, perfKeyError, combosOf,
    limitedAll, reduceCat, grouped, dedupByName, dictInsert, crossProduct, stepBest,
    admissible, is_compatible, powerOK, totalWattage, totalPrice, score_build,
    replaceCond, initState, REQUIRED_CATEGORIES, weightsFor_gaming, gamingWeights,
    valueKey, List.filter_cons, List.filter_nil,
    demoCatalog, demoBuild, cCPU, cGPU, cMB, cRAM, cST, cPSU, cCase]

/-- With an OS in the catalog and `include_os = true`, the result is the same
seven-component build: the OS is not appended. -/
theorem eval_withOS :
    generate_best_build catalogWithOS 1000 "gaming" true [] = .ok (some demoBuild) := by
  norm_num +decide [generate_best_build, hasMissingCategory, perfKeyError, combosOf,
    limitedAll, reduceCat, grouped, dedupByName, dictInsert, crossProduct, stepBest,
    admissible, is_compatible, powerOK, totalWattage, totalPrice, score_build,
    replaceCond, initState, REQUIRED_CATEGORIES, weightsFor_gaming, gamingWeights,
    valueKey, List.filter_cons, List.filter_nil,
    catalogWithOS, demoCatalog, demoBuild, cCPU, cGPU, cMB, cRAM, cST, cPSU, cCase, cOS]

/-- With the GPU category empty the function returns `None`. -/
theorem eval_missingGPU :
    generate_best_build catalogMissingGPU 1000 "gaming" false [] = .ok none := by
  norm_num +decide [generate_best_build, hasMissingCategory, grouped,
    REQUIRED_CATEGORIES, catalogMissingGPU, cCPU, cMB, cRAM, cST, cPSU, cCase,
    List.filter_cons, List.filter_nil]

/-- With the only combination failing the socket check the function also
returns `None` — the same value as for a missing category. -/
theorem eval_incompat :
    generate_best_build catalogIncompat 1000 "gaming" false [] = .ok none := by
  norm_num +decide [generate_best_build, hasMissingCategory, perfKeyError, combosOf,
    limitedAll, reduceCat, grouped, dedupByName, dictInsert, crossProduct, stepBest,
    admissible, is_compatible, powerOK, totalWattage, totalPrice, score_build,
    replaceCond, initState, REQUIRED_CATEGORIES, weightsFor_gaming, gamingWeights,
    valueKey, List.filter_cons, List.filter_nil,
    catalogIncompat, cCPUBadSocket, cGPU, cMB, cRAM, cST, cPSU, cCase]

/-- With a required-category component lacking `performance_score`, the
function raises (models the `KeyError` from the reducer's sort key). -/
theorem eval_noPerf :
    generate_best_build catalogNoPerf 1000 "gaming" false [] = .error () := by
  norm_num +decide [generate_best_build, hasMissingCategory, perfKeyError, grouped,
    REQUIRED_CATEGORIES, catalogNoPerf, cCPUNoPerf, cGPU, cMB, cRAM, cST, cPSU, cCase,
    List.filter_cons, List.filter_nil]

/-! ### Auxiliary length bounds for the candidate reducer -/

theorem dictInsert_length (m : List (String × Component)) (k : String)
    (v : Component) : (dictInsert m k v).length ≤ m.length + 1 := by
  unfold dictInsert
  split
  · simp
  · simp

theorem dictFold_length :
    ∀ (cs : List Component) (m : List (String × Component)),
      (cs.foldl (fun m c => dictInsert m c.name c) m).length ≤ m.length + cs.length
  | [], m => by simp
  | c :: cs, m => by
    have h1 := dictFold_length cs (dictInsert m c.name c)
    have h2 := dictInsert_length m c.name c
    simp only [List.foldl_cons, List.length_cons]
    omega

theorem dedupByName_length (cs : List Component) :
    (dedupByName cs).length ≤ cs.length := by
  unfold dedupByName
  rw [List.length_map]
  simpa using dictFold_length cs []

/-! ### Claim theorems -/

/-- C4: for every valid input, if `generate_best_build` returns a build, the
CPU's socket equals the Motherboard's socket and the RAM's `ram_type` equals
the Motherboard's `ram_type` in that build (exact equality of the optional
field values, hence case-sensitive). -/
theorem C4_socket_ram_match (products : List Component) (budget : ℚ)
    (purpose : String) (os : Bool) (ps : List String) (b : List Component)
    (h : generate_best_build products budget purpose os ps = .ok (some b)) :
    ∃ cpu motherboard ram,
      b.find? (fun c => c.type == "CPU") = some cpu ∧
      b.find? (fun c => c.type == "Motherboard") = some motherboard ∧
      b.find? (fun c => c.type == "RAM") = some ram ∧
      cpu.socket = motherboard.socket ∧ ram.ram_type = motherboard.ram_type := by
  obtain ⟨-, hadm⟩ := generate_mem_admissible h
  obtain ⟨hc, -, -⟩ := admissible_parts hadm
  obtain ⟨cpu, mb, ram, psu, h1, h2, h3, -, h5, h6⟩ := is_compatible_elim hc
  exact ⟨cpu, mb, ram, h1, h2, h3, h5, h6⟩

/-- Witness for C4 on the demo catalog. -/
theorem C4_witness :
    generate_best_build demoCatalog 1000 "gaming" false [] = .ok (some demoBuild) ∧
    ∃ cpu motherboard ram,
      demoBuild.find? (fun c => c.type == "CPU") = some cpu ∧
      demoBuild.find? (fun c => c.type == "Motherboard") = some motherboard ∧
      demoBuild.find? (fun c => c.type == "RAM") = some ram ∧
      cpu.socket = motherboard.socket ∧ ram.ram_type = motherboard.ram_type :=
  ⟨eval_demo, C4_socket_ram_match demoCatalog 1000 "gaming" false [] demoBuild eval_demo⟩

/-- C5: for every valid input, if `generate_best_build` returns a build, the
PSU's wattage (absent value counted 0) is at least 1.2 times the sum of
wattage over the non-PSU components of the build (absent values counted 0). -/
theorem C5_psu_headroom (products : List Component) (budget : ℚ)
    (purpose : String) (os : Bool) (ps : List String) (b : List Component)
    (h : generate_best_build products budget purpose os ps = .ok (some b)) :
    ∃ psu, b.find? (fun c => c.type == "PSU") = some psu ∧
      totalWattage b * (12/10) ≤ psu.wattage.getD 0 := by
  obtain ⟨-, hadm⟩ := generate_mem_admissible h
  obtain ⟨hc, hp, -⟩ := admissible_parts hadm
  obtain ⟨cpu, mb, ram, psu, -, -, -, h4, -, -⟩ := is_compatible_elim hc
  exact ⟨psu, h4, powerOK_elim h4 hp⟩

/-- Witness for C5 on the demo catalog. -/
theorem C5_witness :
    generate_best_build demoCatalog 1000 "gaming" false [] = .ok (some demoBuild) ∧
    ∃ psu, demoBuild.find? (fun c => c.type == "PSU") = some psu ∧
      totalWattage demoBuild * (12/10) ≤ psu.wattage.getD 0 :=
  ⟨eval_demo, C5_psu_headroom demoCatalog 1000 "gaming" false [] demoBuild eval_demo⟩

/-- C6: for every valid input, if `generate_best_build` returns a build, the
sum of prices over all components of that build does not exceed the budget. -/
theorem C6_within_budget (products : List Component) (budget : ℚ)
    (purpose : String) (os : Bool) (ps : List String) (b : List Component)
    (h : generate_best_build products budget purpose os ps = .ok (some b)) :
    totalPrice b ≤ budget := by
  obtain ⟨-, hadm⟩ := generate_mem_admissible h
  exact (admissible_parts hadm).2.2

/-- Witness for C6 on the demo catalog. -/
theorem C6_witness :
    generate_best_build demoCatalog 1000 "gaming" false [] = .ok (some demoBuild) ∧
    totalPrice demoBuild ≤ 1000 :=
  ⟨eval_demo, C6_within_budget demoCatalog 1000 "gaming" false [] demoBuild eval_demo⟩

/-- C8: for every category and component pool, the candidate reducer yields a
list of at most K+M = 5+2 = 7 components, and it is exactly the top 5 of the
stable descending value ranking merged with the top 2 of the stable descending
price ranking over the as-cheap-as-budget pool, de-duplicated by name. -/
theorem C8_candidate_bound (w : String → ℚ) (budget : ℚ) (cat : String)
    (comps : List Component) :
    (reduceCat w budget cat comps).length ≤ 7 ∧
    reduceCat w budget cat comps =
      dedupByName
        ((comps.mergeSort
            (fun a b => decide (valueKey w cat b ≤ valueKey w cat a))).take 5 ++
         ((comps.filter (fun c => decide (c.price ≤ budget))).mergeSort
            (fun a b => decide (b.price ≤ a.price))).take 2) := by
  refine ⟨?_, rfl⟩
  unfold reduceCat
  refine le_trans (dedupByName_length _) ?_
  rw [List.length_append]
  have h1 := List.length_take_le 5 (comps.mergeSort
    (fun a b => decide (valueKey w cat b ≤ valueKey w cat a)))
  have h2 := List.length_take_le 2 ((comps.filter
    (fun c => decide (c.price ≤ budget))).mergeSort
    (fun a b => decide (b.price ≤ a.price)))
  omega

/-- C10: the compatibility predicate accepts a build in which CPU and
motherboard both lack `socket` and RAM and motherboard both lack `ram_type`
(both `dict.get` lookups yield the same absent default on each side). -/
theorem C10_absent_fields_compatible (b : List Component)
    (cpu motherboard ram psu : Component)
    (hcpu : b.find? (fun c => c.type == "CPU") = some cpu)
    (hmb : b.find? (fun c => c.type == "Motherboard") = some motherboard)
    (hram : b.find? (fun c => c.type == "RAM") = some ram)
    (hpsu : b.find? (fun c => c.type == "PSU") = some psu)
    (h1 : cpu.socket = none) (h2 : motherboard.socket = none)
    (h3 : ram.ram_type = none) (h4 : motherboard.ram_type = none) :
    is_compatible b = true := by
  unfold is_compatible
  rw [hcpu, hmb, hram, hpsu]
  simp [h1, h2, h3, h4]

/-- Field-free demo CPU (no socket, no ram_type, no wattage). -/
def cCPUBare : Component := ⟨"CPU", "cpuB", 100, some 1, none, none, none⟩

/-- Field-free demo motherboard. -/
def cMBBare : Component := ⟨"Motherboard", "mbB", 100, some 1, none, none, none⟩

/-- Field-free demo RAM. -/
def cRAMBare : Component := ⟨"RAM", "ramB", 100, some 1, none, none, none⟩

/-- Field-free demo PSU. -/
def cPSUBare : Component := ⟨"PSU", "psuB", 100, some 1, none, none, none⟩

/-- A build whose compatibility-relevant fields are all absent. -/
def bareBuild : List Component := [cCPUBare, cMBBare, cRAMBare, cPSUBare]

/-- Witness for C10 on the field-free build. -/
theorem C10_witness :
    (bareBuild.find? (fun c => c.type == "CPU") = some cCPUBare ∧
     bareBuild.find? (fun c => c.type == "Motherboard") = some cMBBare ∧
     bareBuild.find? (fun c => c.type == "RAM") = some cRAMBare ∧
     bareBuild.find? (fun c => c.type == "PSU") = some cPSUBare ∧
     cCPUBare.socket = none ∧ cMBBare.socket = none ∧
     cRAMBare.ram_type = none ∧ cMBBare.ram_type = none) ∧
    is_compatible bareBuild = true :=
  ⟨by decide,
   C10_absent_fields_compatible bareBuild cCPUBare cMBBare cRAMBare cPSUBare
     (by decide) (by decide) (by decide) (by decide)
     (by decide) (by decide) (by decide) (by decide)⟩

/-- The optional-component parameters have no effect: the body of
`generate_best_build` never reads `include_os` or `peripherals`. -/
theorem generate_ignores_optional (products : List Component) (budget : ℚ)
    (purpose : String) (os os2 : Bool) (ps ps2 : List String) :
    generate_best_build products budget purpose os ps =
      generate_best_build products budget purpose os2 ps2 := rfl

/-- C1 counterexample: with `include_os = true` and an Operating-System
component present in the catalog, the returned build contains no
Operating-System component — nothing optional is appended. -/
theorem C1_counterexample :
    generate_best_build catalogWithOS 1000 "gaming" true [] = .ok (some demoBuild) ∧
    cOS ∈ catalogWithOS ∧ cOS.type = "Operating System" ∧
    demoBuild.all (fun c => c.type != "Operating System") = true :=
  ⟨eval_withOS, by decide, by decide, by decide⟩

/-- C1 (amended): a returned build contains exactly one component per
required category and nothing else; `include_os` and `peripherals` never
change the result, so no optional component is ever appended. -/
theorem C1_amended_build_shape (products : List Component) (budget : ℚ)
    (purpose : String) (os : Bool) (ps : List String) (b : List Component)
    (h : generate_best_build products budget purpose os ps = .ok (some b)) :
    (∀ cat ∈ REQUIRED_CATEGORIES, (b.filter (fun c => c.type == cat)).length = 1) ∧
    (∀ c ∈ b, c.type ∈ REQUIRED_CATEGORIES) ∧
    (∀ (os2 : Bool) (ps2 : List String),
      generate_best_build products budget purpose os2 ps2 = .ok (some b)) := by
  obtain ⟨hmem, -⟩ := generate_mem_admissible h
  have htypes : List.Forall₂ (fun c cat => c.type = cat) b REQUIRED_CATEGORIES :=
    (combos_types hmem).imp (fun c cat hc => hc.1)
  refine ⟨?_, forall₂_types_mem htypes, fun os2 ps2 =>
    (generate_ignores_optional products budget purpose os2 os ps2 ps).trans h⟩
  intro cat hcat
  rw [forall₂_filter_count htypes cat]
  simp only [REQUIRED_CATEGORIES, List.mem_cons, List.not_mem_nil, or_false] at hcat
  rcases hcat with rfl | rfl | rfl | rfl | rfl | rfl | rfl <;> decide

/-- Witness for the amended C1 on the demo catalog. -/
theorem C1_amended_witness :
    generate_best_build demoCatalog 1000 "gaming" false [] = .ok (some demoBuild) ∧
    ((∀ cat ∈ REQUIRED_CATEGORIES,
        (demoBuild.filter (fun c => c.type == cat)).length = 1) ∧
     (∀ c ∈ demoBuild, c.type ∈ REQUIRED_CATEGORIES) ∧
     (∀ (os2 : Bool) (ps2 : List String),
        generate_best_build demoCatalog 1000 "gaming" os2 ps2 = .ok (some demoBuild))) :=
  ⟨eval_demo, C1_amended_build_shape demoCatalog 1000 "gaming" false [] demoBuild eval_demo⟩

/-- C2 counterexample: a missing-GPU catalog and a fully populated but
unsatisfiable catalog produce the identical returned value `.ok none` — the
two failure cases are not distinguishable from the result. -/
theorem C2_counterexample :
    generate_best_build catalogMissingGPU 1000 "gaming" false [] =
      generate_best_build catalogIncompat 1000 "gaming" false [] ∧
    generate_best_build catalogMissingGPU 1000 "gaming" false [] = .ok none ∧
    hasMissingCategory catalogMissingGPU = true ∧
    hasMissingCategory catalogIncompat = false :=
  ⟨eval_missingGPU.trans eval_incompat.symm, eval_missingGPU, by decide, by decide⟩

/-- C2 (amended): both failure cases yield the same returned value `None`
(`.ok none`): every missing-required-category input returns it, and so does a
fully populated catalog whose only combination fails compatibility; the two
cases are distinguished only by printed diagnostics, not by the result. -/
theorem C2_amended_same_result :
    (∀ (products : List Component) (budget : ℚ) (purpose : String) (os : Bool)
       (ps : List String), hasMissingCategory products = true →
       generate_best_build products budget purpose os ps = .ok none) ∧
    generate_best_build catalogIncompat 1000 "gaming" false [] = .ok none ∧
    hasMissingCategory catalogIncompat = false := by
  refine ⟨?_, eval_incompat, by decide⟩
  intro products budget purpose os ps h
  unfold generate_best_build
  rw [if_pos h]

/-- Witness for the amended C2 at the missing-GPU catalog. -/
theorem C2_amended_witness :
    hasMissingCategory catalogMissingGPU = true ∧
    generate_best_build catalogMissingGPU 1000 "gaming" false [] = .ok none :=
  ⟨by decide,
   C2_amended_same_result.1 catalogMissingGPU 1000 "gaming" false [] (by decide)⟩

/-- C3 counterexample: every required category is populated, yet a CPU record
lacking `performance_score` makes `generate_best_build` raise (the candidate
reducer's sort key reads the field without a default) instead of treating the
absent field as 0. -/
theorem C3_counterexample :
    generate_best_build catalogNoPerf 1000 "gaming" false [] = .error () ∧
    hasMissingCategory catalogNoPerf = false ∧
    cCPUNoPerf ∈ catalogNoPerf ∧ cCPUNoPerf.performance_score = none :=
  ⟨eval_noPerf, by decide, by decide, by decide⟩

/-- C3 (amended): an absent `wattage` (or `socket`, `ram_type`) never makes
the call fail — whenever every product of a required category carries
`performance_score`, the call returns normally; only an absent
`performance_score` on a required-category product can make it raise. -/
theorem C3_amended_robustness (products : List Component) (budget : ℚ)
    (purpose : String) (os : Bool) (ps : List String)
    (hperf : ∀ c ∈ products, c.type ∈ REQUIRED_CATEGORIES →
      c.performance_score ≠ none) :
    ∃ r, generate_best_build products budget purpose os ps = .ok r := by
  unfold generate_best_build
  by_cases h1 : hasMissingCategory products
  · rw [if_pos h1]
    exact ⟨none, rfl⟩
  · rw [if_neg h1]
    have h2 : perfKeyError products = false := by
      unfold perfKeyError
      rw [List.any_eq_false]
      intro c hc hcontra
      simp only [Bool.and_eq_true, Option.isNone_iff_eq_none] at hcontra
      have hmem : c.type ∈ REQUIRED_CATEGORIES := by simpa using hcontra.1
      exact hperf c hc hmem hcontra.2
    simp only [h2, Bool.false_eq_true, if_false]
    exact ⟨_, rfl⟩

/-- Witness for the amended C3 on the demo catalog. -/
theorem C3_amended_witness :
    (∀ c ∈ demoCatalog, c.type ∈ REQUIRED_CATEGORIES →
      c.performance_score ≠ none) ∧
    ∃ r, generate_best_build demoCatalog 1000 "gaming" false [] = .ok r :=
  ⟨by decide, C3_amended_robustness demoCatalog 1000 "gaming" false [] (by decide)⟩

/-- C7: a returned build is an admissible enumerated combination; no
admissible enumerated combination has a strictly higher purpose-weighted
score, among equal scorers none has a strictly higher total price, and the
returned build sits at a position of the enumeration before which no
admissible combination ties with it on both score and price — so a later
combination replaced it only by being strictly better in the score-then-price
order, exactly the replacement rule of the loop. -/
theorem C7_optimality (products : List Component) (budget : ℚ)
    (purpose : String) (os : Bool) (ps : List String) (b : List Component)
    (h : generate_best_build products budget purpose os ps = .ok (some b)) :
    b ∈ combosOf products budget purpose ∧ admissible budget b = true ∧
    (∀ b' ∈ combosOf products budget purpose, admissible budget b' = true →
      score_build b' purpose < score_build b purpose ∨
      (score_build b' purpose = score_build b purpose ∧
       totalPrice b' ≤ totalPrice b)) ∧
    (∃ l1 l2, combosOf products budget purpose = l1 ++ b :: l2 ∧
      ∀ b' ∈ l1, admissible budget b' = true →
        ¬(score_build b' purpose = score_build b purpose ∧
          totalPrice b' = totalPrice b)) := by
  obtain ⟨-, -, hfold⟩ := generate_ok_some h
  rcases foldBest_first budget purpose _ initState b hfold with
    hinit | ⟨hadm, hsc, hpr, l1, l2, hdec, hnone⟩
  · cases hinit
  · refine ⟨?_, hadm, ?_, l1, l2, hdec, hnone⟩
    · rw [hdec]
      exact List.mem_append_right _ (List.mem_cons_self _ _)
    · intro b' hb' hadm'
      have hdom := foldBest_dominates budget purpose _ initState b' hb' hadm'
      have hstate : statePair ((combosOf products budget purpose).foldl
          (stepBest budget purpose) initState) =
          (score_build b purpose, totalPrice b) := by
        unfold statePair
        rw [hsc, hpr]
      rw [hstate] at hdom
      simpa [pairLE, buildPair] using hdom

/-- Witness for C7 on the demo catalog. -/
theorem C7_witness :
    generate_best_build demoCatalog 1000 "gaming" false [] = .ok (some demoBuild) ∧
    (demoBuild ∈ combosOf demoCatalog 1000 "gaming" ∧
     admissible 1000 demoBuild = true ∧
     (∀ b' ∈ combosOf demoCatalog 1000 "gaming", admissible 1000 b' = true →
       score_build b' "gaming" < score_build demoBuild "gaming" ∨
       (score_build b' "gaming" = score_build demoBuild "gaming" ∧
        totalPrice b' ≤ totalPrice demoBuild)) ∧
     (∃ l1 l2, combosOf demoCatalog 1000 "gaming" = l1 ++ demoBuild :: l2 ∧
       ∀ b' ∈ l1, admissible 1000 b' = true →
         ¬(score_build b' "gaming" = score_build demoBuild "gaming" ∧
           totalPrice b' = totalPrice demoBuild))) :=
  ⟨eval_demo, C7_optimality demoCatalog 1000 "gaming" false [] demoBuild eval_demo⟩

/-! ### Purpose-string normalisation (C9) -/

theorem char_ofNat_toNat {n : Nat} (h : n.isValidChar) :
    (Char.ofNat n).toNat = n := by
  unfold Char.ofNat
  rw [dif_pos h]
  rfl

theorem char_toLower_idem (c : Char) : c.toLower.toLower = c.toLower := by
  by_cases h : c.toNat ≥ 65 ∧ c.toNat ≤ 90
  · have h1 : c.toLower = Char.ofNat (c.toNat + 32) := by
      unfold Char.toLower
      rw [if_pos h]
    have hv : (c.toNat + 32).isValidChar := Or.inl (by omega)
    have ht : (Char.ofNat (c.toNat + 32)).toNat = c.toNat + 32 := char_ofNat_toNat hv
    rw [h1]
    unfold Char.toLower
    rw [ht, if_neg (by omega)]
  · have h1 : c.toLower = c := by
      unfold Char.toLower
      rw [if_neg h]
    rw [h1, h1]

theorem string_toLower_idem (s : String) : s.toLower.toLower = s.toLower := by
  simp only [String.toLower, String.map_eq, List.map_map]
  congr 1
  apply List.map_congr_left
  intro c _
  simpa using char_toLower_idem c

/-- Lowercasing the purpose does not change the weight lookup. -/
theorem weightsFor_toLower (p : String) : weightsFor p.toLower = weightsFor p := by
  unfold weightsFor
  rw [string_toLower_idem]

theorem score_build_congr {p1 p2 : String} (hw : weightsFor p1 = weightsFor p2)
    (b : List Component) : score_build b p1 = score_build b p2 := by
  unfold score_build
  rw [hw]

theorem stepBest_congr {p1 p2 : String} (hw : weightsFor p1 = weightsFor p2)
    (budget : ℚ) : stepBest budget p1 = stepBest budget p2 := by
  funext st b
  unfold stepBest
  rw [score_build_congr hw]

/-- The whole search depends on the purpose only through the weight lookup. -/
theorem generate_congr {p1 p2 : String} (hw : weightsFor p1 = weightsFor p2)
    (products : List Component) (budget : ℚ) (os : Bool) (ps : List String) :
    generate_best_build products budget p1 os ps =
      generate_best_build products budget p2 os ps := by
  unfold generate_best_build combosOf limitedAll
  rw [hw, stepBest_congr hw]

/-- C9: the weight lookup is case-insensitive with a `"general"` fallback —
the result is unchanged under lowercasing the purpose, and any purpose whose
lowercase form is none of the three known keywords behaves exactly like
`"general"`. -/
theorem C9_purpose_normalisation (products : List Component) (budget : ℚ)
    (purpose : String) (os : Bool) (ps : List String) :
    generate_best_build products budget purpose os ps =
      generate_best_build products budget purpose.toLower os ps ∧
    (purpose.toLower ≠ "gaming" → purpose.toLower ≠ "editing" →
     purpose.toLower ≠ "general" →
     generate_best_build products budget purpose os ps =
       generate_best_build products budget "general" os ps) := by
  constructor
  · exact generate_congr (weightsFor_toLower purpose).symm products budget os ps
  · intro h1 h2 h3
    refine generate_congr ?_ products budget os ps
    unfold weightsFor
    have hgen : ("general" : String).toLower = "general" := by
      simp [String.toLower, String.map_eq]
    have hnone : PURPOSE_WEIGHTS purpose.toLower = none := by
      unfold PURPOSE_WEIGHTS
      rw [if_neg h1, if_neg h2, if_neg h3]
    rw [hgen, hnone]
    unfold PURPOSE_WEIGHTS
    simp

/-- Witness for C9 at the unrecognized purpose `"OFFICE"`. -/
theorem C9_witness :
    (generate_best_build demoCatalog 1000 "OFFICE" false [] =
       generate_best_build demoCatalog 1000 "OFFICE".toLower false []) ∧
    ("OFFICE".toLower ≠ "gaming" ∧ "OFFICE".toLower ≠ "editing" ∧
     "OFFICE".toLower ≠ "general") ∧
    generate_best_build demoCatalog 1000 "OFFICE" false [] =
      generate_best_build demoCatalog 1000 "general" false [] := by
  have h1 : ("OFFICE" : String).toLower ≠ "gaming" := by
    simp [String.toLower, String.map_eq]
  have h2 : ("OFFICE" : String).toLower ≠ "editing" := by
    simp [String.toLower, String.map_eq]
  have h3 : ("OFFICE" : String).toLower ≠ "general" := by
    simp [String.toLower, String.map_eq]
  exact ⟨(C9_purpose_normalisation demoCatalog 1000 "OFFICE" false []).1, ⟨h1, h2, h3⟩,
    (C9_purpose_normalisation demoCatalog 1000 "OFFICE" false []).2 h1 h2 h3⟩

end PCBuild
